import Mathlib

/-!
Verification development for the ozzo-config configuration library.

The dynamic configuration tree (the result of decoding JSON/YAML/TOML into
nested `map[string]interface{}`, `[]interface{}` and scalars) is modelled by
`DynVal`.  Map nodes are association lists with string keys; Go maps have
unique keys, expressed by `NodupKeys` where needed.  A `nil` interface value
(a decoded JSON `null`, or an invalid `reflect.Value`) is modelled by
`DynVal.null`: in the Go source, `mapIndex` unwraps an interface entry with
`Value.Elem`, which yields the zero (invalid) `reflect.Value` both for an
absent key and for a stored `nil`, and `Value.SetMapIndex` with the zero
`Value` deletes the key.  Those reflect semantics are made explicit in
`goLookup` and `goSetKey` below.
-/

namespace OzzoConfig

/-- A dynamic configuration value (Go `interface{}` tree).  Numbers keep the
Go dynamic type they carry at runtime: JSON decodes numbers to `float64`
(`floatv`, modelled as a rational), YAML to `int` (`intv`) and TOML to
`int64` (`int64v`). -/
inductive DynVal where
  | null
  | boolv (b : Bool)
  | intv (n : Int)
  | int64v (n : Int)
  | floatv (q : Rat)
  | strv (s : String)
  | seq (xs : List DynVal)
  | map (m : List (String × DynVal))
  deriving Repr

namespace DynVal

/-- `!v.IsValid()`: the value is the zero `reflect.Value` (a decoded null). -/
def isNull : DynVal → Bool
  | .null => true
  | _ => false

/-- `v.Kind() == reflect.Map` on the unwrapped dynamic value. -/
def isMap : DynVal → Bool
  | .map _ => true
  | _ => false

/-- `v.Kind() == reflect.Array || v.Kind() == reflect.Slice`. -/
def isSeq : DynVal → Bool
  | .seq _ => true
  | _ => false

/-- A non-null scalar kind (bool, number, string). -/
def isScalar : DynVal → Bool
  | .boolv _ => true
  | .intv _ => true
  | .int64v _ => true
  | .floatv _ => true
  | .strv _ => true
  | _ => false

end DynVal

/-- Entries of a dynamic mapping node. -/
abbrev Entries := List (String × DynVal)

/-- Raw association-list lookup (first occurrence), keeping stored nulls. -/
def assocFindD : Entries → String → Option DynVal
  | [], _ => none
  | (k, v) :: rest, key => if k = key then some v else assocFindD rest key

/-- Replace the (first) binding of `key`, or append a new binding: the effect
of Go `SetMapIndex` with a valid value on an association-list map. -/
def putKey : Entries → String → DynVal → Entries
  | [], key, v => [(key, v)]
  | (k, w) :: rest, key, v =>
      if k = key then (k, v) :: rest else (k, w) :: putKey rest key v

/-- Remove every binding of `key`: the effect of Go `SetMapIndex` with the
zero `reflect.Value`. -/
def eraseKey : Entries → String → Entries
  | [], _ => []
  | (k, w) :: rest, key =>
      if k = key then eraseKey rest key else (k, w) :: eraseKey rest key

/-- Unwrap an interface entry with `Value.Elem`: a stored null reads back as
the invalid `reflect.Value`. -/
def unwrapNull : Option DynVal → Option DynVal
  | some .null => none
  | r => r

/-- `mapIndex` from config.go: map lookup followed by `Value.Elem` on the
interface entry, which turns a stored `nil` into the invalid `reflect.Value`
(indistinguishable from an absent key). -/
def goLookup (m : Entries) (key : String) : Option DynVal :=
  unwrapNull (assocFindD m key)

/-- `Value.SetMapIndex`: storing the invalid `reflect.Value` deletes the key. -/
def goSetKey (m : Entries) (key : String) : Option DynVal → Entries
  | none => eraseKey m key
  | some v => putKey m key v

/-- The keys of a Go map node are distinct. -/
def NodupKeys (m : Entries) : Prop := (m.map Prod.fst).Nodup

instance : DecidablePred NodupKeys := fun m =>
  inferInstanceAs (Decidable (m.map Prod.fst).Nodup)

mutual

/-- `merge` from config.go.  If either operand is not of map kind the update
operand is returned; otherwise each key of the update map is written into the
base map (`mergeEntries`), and the (mutated) base map is returned.  The
in-place mutation itself is studied separately on the heap model below; this
function is the value computed at the root. -/
def mergeD : DynVal → DynVal → DynVal
  | .map m1, .map m2 => .map (mergeEntries m1 m2)
  | _, v2 => v2

/-- The loop body of `merge`: for each key of the update map, read both sides
with `mapIndex` (nulls unwrap to the invalid value), recursively merge when
both sides are maps, and store the result with `SetMapIndex` (which deletes
the key when the update entry is a null). -/
def mergeEntries : Entries → Entries → Entries
  | m1, [] => m1
  | m1, (k, e2) :: rest =>
    if e2.isNull then
      mergeEntries (eraseKey m1 k) rest
    else
      let newVal :=
        match goLookup m1 k with
        | some e1 => if e1.isMap && e2.isMap then mergeD e1 e2 else e2
        | none => e2
      mergeEntries (putKey m1 k newVal) rest

end

/-- A value found by association lookup is a subterm of the entry list. -/
theorem sizeOf_assocFindD : ∀ (m : Entries) (k : String) (v : DynVal),
    assocFindD m k = some v → sizeOf v < sizeOf m := by
  intro m k v h
  induction m with
  | nil => simp [assocFindD] at h
  | cons p rest ih =>
    obtain ⟨k0, w⟩ := p
    simp only [assocFindD] at h
    split at h
    · cases h
      simp only [List.cons.sizeOf_spec, Prod.mk.sizeOf_spec]
      omega
    · have := ih h
      simp only [List.cons.sizeOf_spec]
      omega

mutual

/-- Reference merge, written from the spec.  Modelled from the spec: if
either operand is not a Mapping the result is the update in its entirety;
if both are Mappings the result contains the union of their keys, a key
present in both maps to the recursive merge of the two values, and a key
present in only one side maps to that value unchanged. -/
def mergeSpec : DynVal → DynVal → DynVal
  | .map m1, .map m2 =>
      .map (mergeSpecBoth m1 m2 ++ m2.filter (fun p => (assocFindD m1 p.1).isNone))
  | _, v2 => v2
termination_by v1 v2 => sizeOf v1 + sizeOf v2
decreasing_by simp_wf; omega

/-- Keys of the base mapping, paired with the recursive merge of the two
values when the update mapping also binds the key. -/
def mergeSpecBoth : Entries → Entries → Entries
  | [], _ => []
  | (k, v1) :: rest, m2 =>
      match h : assocFindD m2 k with
      | some v2 => (k, mergeSpec v1 v2) :: mergeSpecBoth rest m2
      | none => (k, v1) :: mergeSpecBoth rest m2
termination_by m1 m2 => sizeOf m1 + sizeOf m2
decreasing_by
  all_goals simp_wf
  all_goals try omega
  all_goals (have hs : sizeOf v2 < sizeOf m2 := sizeOf_assocFindD m2 k v2 h
             omega)

end

theorem assocFindD_eq_none_of_not_mem : ∀ (m : Entries) (k : String),
    k ∉ m.map Prod.fst → assocFindD m k = none := by
  intro m k h
  induction m with
  | nil => rfl
  | cons p rest ih =>
    obtain ⟨k0, w⟩ := p
    simp only [List.map_cons, List.mem_cons] at h
    push_neg at h
    simp only [assocFindD]
    rw [if_neg (fun hk => h.1 hk.symm)]
    exact ih h.2

theorem assocFindD_putKey_self : ∀ (m : Entries) (k : String) (v : DynVal),
    assocFindD (putKey m k v) k = some v := by
  intro m k v
  induction m with
  | nil => simp [putKey, assocFindD]
  | cons p rest ih =>
    obtain ⟨k0, w⟩ := p
    by_cases hk : k0 = k
    · simp [putKey, hk, assocFindD]
    · simp [putKey, hk, assocFindD, ih]

theorem assocFindD_putKey_ne : ∀ (m : Entries) (k0 k : String) (v : DynVal),
    k0 ≠ k → assocFindD (putKey m k0 v) k = assocFindD m k := by
  intro m k0 k v hne
  induction m with
  | nil => simp [putKey, assocFindD, hne]
  | cons p rest ih =>
    obtain ⟨k1, w⟩ := p
    by_cases hk : k1 = k0
    · subst hk
      simp [putKey, assocFindD, hne]
    · simp only [putKey, if_neg hk, assocFindD]
      by_cases hk1 : k1 = k
      · simp [hk1]
      · simp [hk1, ih]

theorem assocFindD_eraseKey_self : ∀ (m : Entries) (k : String),
    assocFindD (eraseKey m k) k = none := by
  intro m k
  induction m with
  | nil => rfl
  | cons p rest ih =>
    obtain ⟨k0, w⟩ := p
    by_cases hk : k0 = k
    · simp [eraseKey, hk, ih]
    · simp [eraseKey, hk, assocFindD, ih]

theorem assocFindD_eraseKey_ne : ∀ (m : Entries) (k0 k : String),
    k0 ≠ k → assocFindD (eraseKey m k0) k = assocFindD m k := by
  intro m k0 k hne
  induction m with
  | nil => rfl
  | cons p rest ih =>
    obtain ⟨k1, w⟩ := p
    by_cases hk : k1 = k0
    · subst hk
      simp [eraseKey, assocFindD, hne, ih]
    · simp only [eraseKey, if_neg hk, assocFindD]
      by_cases hk1 : k1 = k
      · simp [hk1]
      · simp [hk1, ih]

/-- A key absent from the update mapping is untouched by the merge loop. -/
theorem mergeEntries_find_absent : ∀ (m2 m1 : Entries) (k : String),
    assocFindD m2 k = none →
    assocFindD (mergeEntries m1 m2) k = assocFindD m1 k := by
  intro m2
  induction m2 with
  | nil => intro m1 k _; rfl
  | cons p rest ih =>
    obtain ⟨k0, e2⟩ := p
    intro m1 k hfind
    have hne : k0 ≠ k := by
      intro h
      simp [assocFindD, h] at hfind
    have hrest : assocFindD rest k = none := by
      simpa [assocFindD, hne] using hfind
    by_cases hnull : e2.isNull
    · rw [show mergeEntries m1 ((k0, e2) :: rest) =
          mergeEntries (eraseKey m1 k0) rest by simp [mergeEntries, hnull]]
      rw [ih _ _ hrest, assocFindD_eraseKey_ne _ _ _ hne]
    · rw [show mergeEntries m1 ((k0, e2) :: rest) =
          mergeEntries (putKey m1 k0
            (match goLookup m1 k0 with
             | some e1 => if e1.isMap && e2.isMap then mergeD e1 e2 else e2
             | none => e2)) rest by simp [mergeEntries, hnull]]
      rw [ih _ _ hrest, assocFindD_putKey_ne _ _ _ _ hne]

/-- The value the merge loop stores for a key bound by the update mapping
(assuming distinct update keys, as in a Go map): a null update entry deletes
the key, otherwise two map values merge recursively and any other update
value replaces the base value. -/
theorem mergeEntries_find_present : ∀ (m2 : Entries), NodupKeys m2 →
    ∀ (m1 : Entries) (k : String) (e2 : DynVal), assocFindD m2 k = some e2 →
    assocFindD (mergeEntries m1 m2) k =
      if e2.isNull then none
      else
        match assocFindD m1 k with
        | some e1 => some (if e1.isMap && e2.isMap then mergeD e1 e2 else e2)
        | none => some e2 := by
  intro m2
  induction m2 with
  | nil => intro _ m1 k e2 hfind; simp [assocFindD] at hfind
  | cons p rest ih =>
    obtain ⟨k0, e2h⟩ := p
    intro hnd m1 k e2 hfind
    have hnds : (k0 :: rest.map Prod.fst).Nodup := by
      simpa [NodupKeys] using hnd
    have hk0 : k0 ∉ rest.map Prod.fst := (List.nodup_cons.mp hnds).1
    have hnd' : NodupKeys rest := (List.nodup_cons.mp hnds).2
    by_cases hk : k0 = k
    · subst hk
      have he2 : e2h = e2 := by simpa [assocFindD] using hfind
      subst he2
      have hrest : assocFindD rest k0 = none := assocFindD_eq_none_of_not_mem _ _ hk0
      by_cases hnull : e2h.isNull
      · rw [show mergeEntries m1 ((k0, e2h) :: rest) =
            mergeEntries (eraseKey m1 k0) rest by simp [mergeEntries, hnull]]
        rw [mergeEntries_find_absent _ _ _ hrest, assocFindD_eraseKey_self, if_pos hnull]
      · rw [show mergeEntries m1 ((k0, e2h) :: rest) =
            mergeEntries (putKey m1 k0
              (match goLookup m1 k0 with
               | some e1 => if e1.isMap && e2h.isMap then mergeD e1 e2h else e2h
               | none => e2h)) rest by simp [mergeEntries, hnull]]
        rw [mergeEntries_find_absent _ _ _ hrest, assocFindD_putKey_self, if_neg hnull]
        unfold goLookup
        cases hm1 : assocFindD m1 k0 with
        | none => simp [unwrapNull]
        | some e1 =>
          cases e1 with
          | null => simp [unwrapNull, DynVal.isMap]
          | _ => simp [unwrapNull]
    · have hfind' : assocFindD rest k = some e2 := by
        simpa [assocFindD, hk] using hfind
      by_cases hnull : e2h.isNull
      · rw [show mergeEntries m1 ((k0, e2h) :: rest) =
            mergeEntries (eraseKey m1 k0) rest by simp [mergeEntries, hnull]]
        rw [ih hnd' _ _ _ hfind', assocFindD_eraseKey_ne _ _ _ hk]
      · rw [show mergeEntries m1 ((k0, e2h) :: rest) =
            mergeEntries (putKey m1 k0
              (match goLookup m1 k0 with
               | some e1 => if e1.isMap && e2h.isMap then mergeD e1 e2h else e2h
               | none => e2h)) rest by simp [mergeEntries, hnull]]
        rw [ih hnd' _ _ _ hfind', assocFindD_putKey_ne _ _ _ _ hk]

/-- C1, counterexample.  The claim says a null update value replaces the base
value wholesale, so `merge({"a":1}, {"a":null})` would be `{"a":null}` (as
`mergeSpec` computes); the code instead deletes the key, because `mapIndex`
unwraps the stored null to the invalid `reflect.Value` and `SetMapIndex`
with the invalid value removes the entry. -/
theorem c1_counterexample :
    mergeD (.map [("a", .intv 1)]) (.map [("a", .null)]) = .map [] ∧
    mergeSpec (.map [("a", .intv 1)]) (.map [("a", .null)]) = .map [("a", .null)] ∧
    mergeD (.map [("a", .intv 1)]) (.map [("a", .null)]) ≠
      mergeSpec (.map [("a", .intv 1)]) (.map [("a", .null)]) := by
  have h1 : mergeD (.map [("a", .intv 1)]) (.map [("a", .null)]) = .map [] := by
    simp [mergeD, mergeEntries, DynVal.isNull, eraseKey]
  have h2 : mergeSpec (.map [("a", .intv 1)]) (.map [("a", .null)]) =
      .map [("a", .null)] := by
    rw [mergeSpec]
    rw [mergeSpecBoth]
    simp [assocFindD, mergeSpec, mergeSpecBoth, List.filter]
  refine ⟨h1, h2, ?_⟩
  rw [h1, h2]
  simp

/-- C1, amended.  `merge` follows the spec's reference definition except for
null update entries, which delete the key instead of storing a null:
(i) if either operand is not a Mapping the result is the update operand;
(ii) on two Mappings the result is the base entry list transformed by the
update loop, where (iii) a key absent from the update mapping keeps the base
binding, and (iv) a key bound by the update mapping is deleted if the update
value is null, merged recursively if both values are Mappings, and otherwise
replaced by the update value. -/
theorem c1_merge_reference_rules :
    (∀ v1 v2 : DynVal, v1.isMap = false ∨ v2.isMap = false → mergeD v1 v2 = v2) ∧
    (∀ m1 m2 : Entries, mergeD (.map m1) (.map m2) = .map (mergeEntries m1 m2)) ∧
    (∀ m2 : Entries, NodupKeys m2 → ∀ (m1 : Entries) (k : String),
      (assocFindD m2 k = none →
        assocFindD (mergeEntries m1 m2) k = assocFindD m1 k) ∧
      (∀ e2 : DynVal, assocFindD m2 k = some e2 →
        assocFindD (mergeEntries m1 m2) k =
          if e2.isNull then none
          else
            match assocFindD m1 k with
            | some e1 => some (if e1.isMap && e2.isMap then mergeD e1 e2 else e2)
            | none => some e2)) := by
  refine ⟨?_, fun m1 m2 => rfl, ?_⟩
  · intro v1 v2 h
    cases v1 <;> cases v2 <;> simp_all [mergeD, DynVal.isMap]
  · intro m2 hnd m1 k
    exact ⟨mergeEntries_find_absent m2 m1 k,
           fun e2 hfind => mergeEntries_find_present m2 hnd m1 k e2 hfind⟩

/-- C1, witness: merging `{"a":1,"b":2}` with `{"b":3,"c":4}` stores `3`
under `"b"`. -/
theorem c1_merge_reference_rules_witness :
    assocFindD (mergeEntries [("a", DynVal.intv 1), ("b", DynVal.intv 2)]
      [("b", DynVal.intv 3), ("c", DynVal.intv 4)]) "b" = some (.intv 3) := by
  have hnd : NodupKeys [("b", DynVal.intv 3), ("c", DynVal.intv 4)] := by decide
  have hfind : assocFindD [("b", DynVal.intv 3), ("c", DynVal.intv 4)] "b" =
      some (.intv 3) := rfl
  have h := (c1_merge_reference_rules.2.2 _ hnd
    [("a", DynVal.intv 1), ("b", DynVal.intv 2)] "b").2 _ hfind
  rw [h]
  rfl

/-!
Heap model of `merge`.  Go maps are reference values: `SetMapIndex` mutates
the pointed-to table, so `merge` writes the update entries into the base
map's own storage and returns the base reference.  `HVal` is a dynamic value
whose map nodes are addresses into a `Store` (address-indexed list of entry
tables), and `mergeH` is `merge` from config.go over that model, with a fuel
argument because reference graphs can be cyclic. -/

/-- A dynamic value whose map nodes are references into a store. -/
inductive HVal where
  | hnull
  | hbool (b : Bool)
  | hint (n : Int)
  | hstr (s : String)
  | hseq (xs : List HVal)
  | href (a : Nat)
  deriving Repr

/-- `v.Kind() == reflect.Map` in the heap model. -/
def HVal.isRef : HVal → Bool
  | .href _ => true
  | _ => false

/-- Heap entries of a map node. -/
abbrev HEntries := List (String × HVal)

/-- The store: table of map contents, indexed by address. -/
abbrev Store := List HEntries

/-- Raw association lookup in a heap map node. -/
def hFind : HEntries → String → Option HVal
  | [], _ => none
  | (k, v) :: rest, key => if k = key then some v else hFind rest key

/-- `mapIndex` on a heap map node: lookup plus interface unwrap, so a stored
null reads back as the invalid value. -/
def hLookup (σ : Store) (a : Nat) (key : String) : Option HVal :=
  match hFind (σ.getD a []) key with
  | some .hnull => none
  | r => r

/-- Replace or append a binding in a heap map node. -/
def hPut : HEntries → String → HVal → HEntries
  | [], key, v => [(key, v)]
  | (k, w) :: rest, key, v =>
      if k = key then (k, v) :: rest else (k, w) :: hPut rest key v

/-- Remove a binding from a heap map node. -/
def hErase : HEntries → String → HEntries
  | [], _ => []
  | (k, w) :: rest, key =>
      if k = key then hErase rest key else (k, w) :: hErase rest key

/-- `SetMapIndex` on the store: mutate the table at address `a`; storing the
invalid value deletes the key. -/
def hSet (σ : Store) (a : Nat) (key : String) : Option HVal → Store
  | none => σ.set a (hErase (σ.getD a []) key)
  | some v => σ.set a (hPut (σ.getD a []) key v)

mutual

/-- `merge` from config.go on the heap model.  When either operand is not a
map reference the update operand is returned and the store is untouched;
when both are map references the update map's keys are written into the base
map's own table and the base reference is returned. -/
def mergeH : Nat → Store → HVal → HVal → Option (HVal × Store)
  | 0, _, _, _ => none
  | fuel + 1, σ, v1, v2 =>
    match v1, v2 with
    | .href a1, .href a2 =>
      match mergeKeys fuel σ a1 a2 ((σ.getD a2 []).map Prod.fst) with
      | some σ2 => some (.href a1, σ2)
      | none => none
    | _, v2 => some (v2, σ)

/-- The loop of `merge` over the update map's keys, writing into the base
map's table at address `a1`. -/
def mergeKeys : Nat → Store → Nat → Nat → List String → Option Store
  | _, σ, _, _, [] => some σ
  | 0, _, _, _, _ :: _ => none
  | fuel + 1, σ, a1, a2, k :: ks =>
    match hLookup σ a2 k with
    | none => mergeKeys fuel (hSet σ a1 k none) a1 a2 ks
    | some e2 =>
      match hLookup σ a1 k with
      | some e1 =>
        if e1.isRef && e2.isRef then
          match mergeH fuel σ e1 e2 with
          | some (e2m, σ1) => mergeKeys fuel (hSet σ1 a1 k (some e2m)) a1 a2 ks
          | none => none
        else mergeKeys fuel (hSet σ a1 k (some e2)) a1 a2 ks
      | none => mergeKeys fuel (hSet σ a1 k (some e2)) a1 a2 ks

end

/-- C8, counterexample.  With base `{"a":1}` at address 0 and update
`{"a":2}` at address 1, merging writes `2` into the base map's own table:
observed through its own reference afterwards, the base contains the
update's value, so the result is not a fresh combined tree. -/
theorem c8_counterexample :
    mergeH 2 [[("a", HVal.hint 1)], [("a", HVal.hint 2)]]
        (.href 0) (.href 1) =
      some (.href 0, [[("a", HVal.hint 2)], [("a", HVal.hint 2)]]) ∧
    hLookup [[("a", HVal.hint 2)], [("a", HVal.hint 2)]] 0 "a" =
      some (.hint 2) ∧
    hLookup [[("a", HVal.hint 1)], [("a", HVal.hint 2)]] 0 "a" =
      some (.hint 1) := by
  refine ⟨?_, rfl, rfl⟩
  rfl

/-- C8, amended.  When both operands are map references, `merge` returns the
base operand's own reference (after writing the update entries into the
base's table): the combined tree aliases the base rather than being a copy. -/
theorem c8_merge_returns_base_reference :
    ∀ (fuel : Nat) (σ : Store) (a1 a2 : Nat) (r : HVal) (σ2 : Store),
    mergeH fuel σ (.href a1) (.href a2) = some (r, σ2) → r = .href a1 := by
  intro fuel σ a1 a2 r σ2 h
  cases fuel with
  | zero => simp [mergeH] at h
  | succ f =>
    simp only [mergeH] at h
    cases hk : mergeKeys f σ a1 a2 ((σ.getD a2 []).map Prod.fst) with
    | none => rw [hk] at h; simp at h
    | some σ1 => rw [hk] at h; simp at h; exact h.1.symm

/-- C8, witness for the amended theorem at the counterexample input. -/
theorem c8_merge_returns_base_reference_witness :
    HVal.href 0 = HVal.href 0 :=
  c8_merge_returns_base_reference 2 [[("a", HVal.hint 1)], [("a", HVal.hint 2)]]
    0 1 (.href 0) [[("a", HVal.hint 2)], [("a", HVal.hint 2)]] (by rfl)

/-!
Dotted-path accessors `Get` and `Set` from config.go, and the conversion to
the default value's dynamic type performed by `Get`. -/

/-- ConfigPathError from config.go: a path that cannot be used to set a
configuration value. -/
structure ConfigPathError where
  path : String
  message : String
  deriving Repr

/-- Digits of a decimal numeral, most significant first. -/
def parseNatChars : List Char → Nat → Option Nat
  | [], acc => some acc
  | c :: cs, acc =>
      if c.isDigit then parseNatChars cs (acc * 10 + (c.toNat - 48)) else none

/-- `strconv.Atoi`: an optional sign followed by at least one decimal
digit. -/
def parseIndex (s : String) : Option Int :=
  match s.data with
  | [] => none
  | '-' :: [] => none
  | '+' :: [] => none
  | '-' :: cs => (parseNatChars cs 0).map (fun n => -(n : Int))
  | '+' :: cs => (parseNatChars cs 0).map (fun n => (n : Int))
  | cs => (parseNatChars cs 0).map (fun n => (n : Int))

/-- `getElement` from config.go: map lookup via `mapIndex`, or array/slice
indexing after `strconv.Atoi`, unwrapping interface elements; any other kind
yields the invalid value. -/
def getElementD : DynVal → String → Option DynVal
  | .map m, p => goLookup m p
  | .seq xs, p =>
    match parseIndex p with
    | some i =>
        if 0 ≤ i ∧ i < (xs.length : Int) then unwrapNull xs[i.toNat]? else none
    | none => none
  | _, _ => none

/-- The path-walking loop of `Get`: successive `getElement` steps, stopping
with the invalid value as soon as a segment fails to resolve.  Paths are
handled as their list of dot-separated segments; the dotted-string parsing
(`strings.Split(path, ".")`) is out of scope here. -/
def resolveParts : Option DynVal → List String → Option DynVal
  | d, [] => d
  | some d, p :: rest => resolveParts (getElementD d p) rest
  | none, _ :: _ => none

/-- The Go dynamic type of a configuration tree node, as used by the
conversion step of `Get` (`reflect.Type.ConvertibleTo`/`Value.Convert`).
JSON numbers decode to `float64`, YAML to `int`, TOML to `int64`. -/
inductive GoTy where
  | tnil
  | tbool
  | tint
  | tint64
  | tfloat
  | tstring
  | tseq
  | tmap
  deriving DecidableEq, Repr

/-- Dynamic type of a value. -/
def tyOf : DynVal → GoTy
  | .null => .tnil
  | .boolv _ => .tbool
  | .intv _ => .tint
  | .int64v _ => .tint64
  | .floatv _ => .tfloat
  | .strv _ => .tstring
  | .seq _ => .tseq
  | .map _ => .tmap

/-- `reflect.Type.ConvertibleTo` restricted to the dynamic types occurring
in configuration trees: every type converts to itself, numeric types convert
among each other, and the integer types additionally convert to string (the
Go rune-to-string conversion). -/
def convertibleGo : GoTy → GoTy → Bool
  | .tbool, .tbool => true
  | .tint, .tint => true
  | .tint, .tint64 => true
  | .tint, .tfloat => true
  | .tint, .tstring => true
  | .tint64, .tint => true
  | .tint64, .tint64 => true
  | .tint64, .tfloat => true
  | .tint64, .tstring => true
  | .tfloat, .tint => true
  | .tfloat, .tint64 => true
  | .tfloat, .tfloat => true
  | .tstring, .tstring => true
  | .tseq, .tseq => true
  | .tmap, .tmap => true
  | _, _ => false

/-- Go float-to-integer conversion truncates toward zero. -/
def ratTrunc (q : Rat) : Int := q.num.tdiv q.den

/-- The Go conversion `string(rune(n))`: the UTF-8 encoding of the code
point, or the replacement character for an invalid code point. -/
def intToRuneString (n : Int) : String :=
  if 0 ≤ n ∧ n < 1114112 ∧ ¬(55296 ≤ n ∧ n < 57344) then
    String.singleton (Char.ofNat n.toNat)
  else
    String.singleton (Char.ofNat 65533)

/-- `reflect.Value.Convert` for the conversions admitted by
`convertibleGo`. -/
def convertGo (v : DynVal) (t : GoTy) : DynVal :=
  match v, t with
  | .intv n, .tint => .intv n
  | .intv n, .tint64 => .int64v n
  | .intv n, .tfloat => .floatv n
  | .intv n, .tstring => .strv (intToRuneString n)
  | .int64v n, .tint => .intv n
  | .int64v n, .tint64 => .int64v n
  | .int64v n, .tfloat => .floatv n
  | .int64v n, .tstring => .strv (intToRuneString n)
  | .floatv q, .tint => .intv (ratTrunc q)
  | .floatv q, .tint64 => .int64v (ratTrunc q)
  | .floatv q, .tfloat => .floatv q
  | v, _ => v

/-- `Get` from config.go: resolve the dotted path through the tree; if any
segment fails, return the default value; otherwise convert the found value
to the default value's dynamic type, returning the default when no such
conversion exists.  A missing default is the nil interface (`null`). -/
def getPath (data : Option DynVal) (parts : List String) (d : DynVal) : DynVal :=
  match resolveParts data parts with
  | none => d
  | some v =>
      if d.isNull then v
      else if convertibleGo (tyOf v) (tyOf d) then convertGo v (tyOf d)
      else d

/-- `setElement` from config.go.  On a map, `SetMapIndex` (deleting when the
new value is the nil interface); on a slice, parse the index, reject
negative or out-of-capacity indices, then `SetLen(idx+1)` followed by the
element write (the configuration trees built by the decoders have slice
length equal to capacity; the `reflect` panic on a non-addressable slice
header is outside this model).  Any other kind is left unchanged (the Go
switch has no default case). -/
def setElementD (data : DynVal) (p : String) (v : DynVal) : Except String DynVal :=
  match data with
  | .map m => .ok (.map (goSetKey m p (if v.isNull then none else some v)))
  | .seq xs =>
    match parseIndex p with
    | none => .error (p ++ " is not a valid array or slice index")
    | some idx =>
      if idx < 0 then .error (p ++ " is not a valid array or slice index")
      else if (xs.length : Int) ≤ idx then .error (p ++ " is out of the slice index bound")
      else .ok (.seq ((xs.take (idx.toNat + 1)).set idx.toNat v))
  | other => .ok other

/-- The kind of a tree node, as printed by `%v` on `reflect.Kind` in the
Set error message. -/
def kindNameD : DynVal → String
  | .null => "invalid"
  | .boolv _ => "bool"
  | .intv _ => "int"
  | .int64v _ => "int64"
  | .floatv _ => "float64"
  | .strv _ => "string"
  | .seq _ => "slice"
  | .map _ => "map"

/-- The kind switch at the top of each `Set` iteration admits maps, arrays
and slices. -/
def kindOkD : DynVal → Bool
  | .map _ => true
  | .seq _ => true
  | _ => false

/-- Store an updated child back at its position in the parent node.  In the
Go source this step is implicit: `getElement` hands out a reference and the
deeper `setElement` mutates through it. -/
def writeBackD (data : DynVal) (p : String) (child : DynVal) : DynVal :=
  match data with
  | .map m => .map (putKey m p child)
  | .seq xs =>
    match parseIndex p with
    | some i => .seq (xs.set i.toNat child)
    | none => .seq xs
  | d => d

/-- The loop of `Set` from config.go: check the current node's kind, write
the value at the last segment, otherwise descend through an existing child
or create an intermediate map.  `done` accumulates the consumed segments for
the prefix-path error, and `fullPath` is the whole path used by the
last-segment error. -/
def setLoop (fullPath : String) (value : DynVal) :
    DynVal → List String → List String → Except ConfigPathError DynVal
  | data, _, [] => .ok data
  | data, done, p :: rest =>
    if kindOkD data then
      if rest.isEmpty then
        match setElementD data p value with
        | .ok d2 => .ok d2
        | .error msg => .error ⟨fullPath, msg⟩
      else
        match getElementD data p with
        | some e =>
          match setLoop fullPath value e (done ++ [p]) rest with
          | .ok e2 => .ok (writeBackD data p e2)
          | .error err => .error err
        | none =>
          match setElementD data p (.map []) with
          | .error msg => .error ⟨String.intercalate "." (done ++ [p]), msg⟩
          | .ok d2 =>
            match setLoop fullPath value (.map []) (done ++ [p]) rest with
            | .ok nm2 => .ok (writeBackD d2 p nm2)
            | .error err => .error err
    else
      .error ⟨String.intercalate "." (done ++ [p]),
        "got " ++ kindNameD data ++ " instead of a map, array, or slice"⟩

/-- `Set` from config.go: initialise the data to an empty map when the
configuration is invalid, then run the segment loop.  The dotted path is
given as its list of segments; the full dotted string used in the
last-segment error is their rejoining. -/
def setPath (cdata : Option DynVal) (parts : List String) (value : DynVal) :
    Except ConfigPathError DynVal :=
  let data := match cdata with
              | none => DynVal.map []
              | some d => d
  setLoop (String.intercalate "." parts) value data [] parts

theorem putKey_putKey : ∀ (m : Entries) (k : String) (v1 v2 : DynVal),
    putKey (putKey m k v1) k v2 = putKey m k v2 := by
  intro m k v1 v2
  induction m with
  | nil => simp [putKey]
  | cons p rest ih =>
    obtain ⟨k0, w⟩ := p
    by_cases hk : k0 = k
    · simp [putKey, hk]
    · simp [putKey, hk, ih]

/-- C9.  Setting `"A.B"` to `100` and then getting `"A.B"` yields `100`
whenever the set succeeds; a missing `"A"` segment is created as an
intermediate map; and when `"A"` already holds a scalar, `Set` fails with a
`ConfigPathError` naming the unusable kind. -/
theorem c9_set_get_roundtrip :
    (∀ (cdata : Option DynVal) (data2 : DynVal),
      setPath cdata ["A", "B"] (.intv 100) = .ok data2 →
      getPath (some data2) ["A", "B"] .null = .intv 100) ∧
    (∀ m : Entries, assocFindD m "A" = none →
      setPath (some (.map m)) ["A", "B"] (.intv 100) =
        .ok (.map (putKey m "A" (.map [("B", .intv 100)])))) ∧
    (∀ (m : Entries) (e : DynVal), assocFindD m "A" = some e →
      e.isScalar = true →
      setPath (some (.map m)) ["A", "B"] (.intv 100) =
        .error ⟨"A.B", "got " ++ kindNameD e ++
          " instead of a map, array, or slice"⟩) := by
  have hB : parseIndex "B" = none := rfl
  have hA1 : parseIndex "A" = none := rfl
  have hAB : String.intercalate "." (["A"] ++ ["B"]) = "A.B" := rfl
  have hround : ∀ (data : DynVal) (data2 : DynVal),
      setLoop "A.B" (.intv 100) data [] ["A", "B"] = .ok data2 →
      getPath (some data2) ["A", "B"] .null = .intv 100 := by
    intro data data2 h
    cases data with
    | map m =>
      simp only [setLoop, kindOkD, if_true, List.isEmpty_cons, getElementD] at h
      cases hA : goLookup m "A" with
      | some e =>
        rw [hA] at h
        cases e with
        | map ma =>
          simp only [setLoop, kindOkD, List.isEmpty_nil, if_true,
            setElementD, DynVal.isNull, goSetKey, writeBackD] at h
          cases h
          simp [getPath, resolveParts, getElementD, goLookup,
            assocFindD_putKey_self, unwrapNull, DynVal.isNull]
        | seq xs =>
          simp [setLoop, kindOkD, setElementD, hB] at h
        | null => simp [setLoop, kindOkD] at h
        | boolv b => simp [setLoop, kindOkD] at h
        | intv n => simp [setLoop, kindOkD] at h
        | int64v n => simp [setLoop, kindOkD] at h
        | floatv q => simp [setLoop, kindOkD] at h
        | strv s => simp [setLoop, kindOkD] at h
      | none =>
        rw [hA] at h
        simp only [setElementD, DynVal.isNull, goSetKey, setLoop, kindOkD,
          List.isEmpty_nil, if_true, putKey, writeBackD] at h
        cases h
        simp [getPath, resolveParts, getElementD, goLookup,
          putKey_putKey, assocFindD_putKey_self, unwrapNull, DynVal.isNull]
    | seq xs =>
      simp [setLoop, kindOkD, getElementD, setElementD, hA1] at h
    | null => simp [setLoop, kindOkD] at h
    | boolv b => simp [setLoop, kindOkD] at h
    | intv n => simp [setLoop, kindOkD] at h
    | int64v n => simp [setLoop, kindOkD] at h
    | floatv q => simp [setLoop, kindOkD] at h
    | strv s => simp [setLoop, kindOkD] at h
  refine ⟨?_, ?_, ?_⟩
  · intro cdata data2 h
    simp only [setPath] at h
    cases cdata with
    | none => exact hround _ _ h
    | some d => exact hround _ _ h
  · intro m hA
    have hA2 : goLookup m "A" = none := by rw [goLookup, hA]; rfl
    simp [setPath, setLoop, kindOkD, getElementD, hA2,
      setElementD, DynVal.isNull, goSetKey, writeBackD, putKey_putKey, putKey]
  · intro m e hA hscalar
    have hA2 : goLookup m "A" = some e := by
      rw [goLookup, hA]
      cases e <;> simp_all [unwrapNull, DynVal.isScalar]
    simp only [setPath, setLoop, kindOkD, getElementD, hA2,
      List.isEmpty_cons]
    cases e <;> simp_all [DynVal.isScalar, setLoop, kindOkD, kindNameD, hAB]

/-- C9, witness: on the empty configuration, setting `"A.B"` to `100`
succeeds and getting `"A.B"` returns `100`; on `{"A": true}` the set fails
with a `ConfigPathError`. -/
theorem c9_set_get_roundtrip_witness :
    getPath (some (.map (putKey [] "A" (.map [("B", DynVal.intv 100)]))))
      ["A", "B"] .null = .intv 100 ∧
    setPath (some (.map [("A", DynVal.boolv true)])) ["A", "B"] (.intv 100) =
      .error ⟨"A.B", "got bool instead of a map, array, or slice"⟩ := by
  constructor
  · exact c9_set_get_roundtrip.1 (some (.map []))
      (.map (putKey [] "A" (.map [("B", DynVal.intv 100)])))
      (c9_set_get_roundtrip.2.1 [] rfl)
  · exact c9_set_get_roundtrip.2.2 [("A", DynVal.boolv true)]
      (.boolv true) rfl rfl

/-- C10.  With a non-nil default, `Get` returns the default when the path
does not resolve; otherwise it returns the found value converted to the
default's dynamic type when the conversion exists, and the default when it
does not. -/
theorem c10_get_default_conversion :
    ∀ (data : Option DynVal) (parts : List String) (d : DynVal),
      d.isNull = false →
      (resolveParts data parts = none →
        getPath data parts d = d) ∧
      (∀ v : DynVal, resolveParts data parts = some v →
        convertibleGo (tyOf v) (tyOf d) = true →
        getPath data parts d = convertGo v (tyOf d)) ∧
      (∀ v : DynVal, resolveParts data parts = some v →
        convertibleGo (tyOf v) (tyOf d) = false →
        getPath data parts d = d) := by
  intro data parts d hd
  refine ⟨?_, ?_, ?_⟩
  · intro hres
    simp [getPath, hres]
  · intro v hres hconv
    simp [getPath, hres, hd, hconv]
  · intro v hres hconv
    simp [getPath, hres, hd, hconv]

/-- C10, witness: a JSON number (stored as a float) is returned as an
integer when the default is an integer, and an unconvertible string default
falls back to the default. -/
theorem c10_get_default_conversion_witness :
    getPath (some (.map [("a", DynVal.floatv 100)])) ["a"] (.intv 7) =
      .intv 100 ∧
    getPath (some (.map [("a", DynVal.floatv 100)])) ["a"] (.strv "abc") =
      .strv "abc" := by
  constructor
  · have h := (c10_get_default_conversion (some (.map [("a", DynVal.floatv 100)]))
      ["a"] (.intv 7) rfl).2.1 (.floatv 100) rfl rfl
    rw [h]
    rfl
  · have h := (c10_get_default_conversion (some (.map [("a", DynVal.floatv 100)]))
      ["a"] (.strv "abc") rfl).2.2 (.floatv 100) rfl rfl
    rw [h]

/-!
Bind engine (configure.go).  Targets are native Go values reached through a
pointer; `GoType`/`GoVal` model the types and values involved.  Binding is
modelled as a pure function from the target value to the updated target
value (in Go the updates happen in place through `reflect`).  Named types
carry their pointer-receiver method set so that the `Implements` check of
`configureInterface` can be expressed; struct fields are the exported
(settable) fields.  Slices are modelled with length equal to capacity, which
is how the decoders and `reflect.MakeSlice` produce them.  The recursion
carries fuel (Go recursion is bounded only by the data); exhausting fuel is
the distinguished `noFuel` outcome, and `reflect` panics on misuse are the
`panicErr` outcome. -/

/-- Go types of bind targets. -/
inductive GoType where
  | tBool
  | tInt
  | tUint8
  | tFloat
  | tString
  | tArray (size : Nat) (elem : GoType)
  | tSlice (elem : GoType)
  | tPtr (elem : GoType)
  | tIface (methods : List String)
  | tMap (value : GoType)
  | tStructT (name : String) (methods : List String) (fields : List (String × GoType))
  deriving Repr

/-- Go values of bind targets.  `vIface` is an interface slot (`none` is the
nil interface); `vDyn` is a dynamic configuration value stored verbatim into
an empty-interface slot by `v.Set(config)`; `vMap` with `none` entries is a
nil map; `vPtr` with `none` pointee is a nil pointer. -/
inductive GoVal where
  | vBool (b : Bool)
  | vInt (n : Int)
  | vFloat (q : Rat)
  | vString (s : String)
  | vArray (elemTy : GoType) (elems : List GoVal)
  | vSlice (elemTy : GoType) (elems : List GoVal)
  | vStruct (name : String) (methods : List String) (fields : List (String × GoVal))
  | vPtr (elemTy : GoType) (pointee : Option GoVal)
  | vIface (methods : List String) (contents : Option GoVal)
  | vMap (valTy : GoType) (entries : Option (List (String × GoVal)))
  | vDyn (d : DynVal)
  deriving Repr

mutual

/-- `reflect.Zero` / the zero value of a type. -/
def zeroVal : GoType → GoVal
  | .tBool => .vBool false
  | .tInt => .vInt 0
  | .tUint8 => .vInt 0
  | .tFloat => .vFloat 0
  | .tString => .vString ""
  | .tArray n e => .vArray e (List.replicate n (zeroVal e))
  | .tSlice e => .vSlice e []
  | .tPtr e => .vPtr e none
  | .tIface ms => .vIface ms none
  | .tMap v => .vMap v none
  | .tStructT n ms fs => .vStruct n ms (zeroFields fs)

/-- Zero values of a struct's fields. -/
def zeroFields : List (String × GoType) → List (String × GoVal)
  | [] => []
  | (k, t) :: rest => (k, zeroVal t) :: zeroFields rest

end

/-- `reflect.Value.Type` on a target value.  (Struct field types are not
tracked on values; only the struct's name and method set matter to the
dispatch and error messages.) -/
def typeOfGo : GoVal → GoType
  | .vBool _ => .tBool
  | .vInt _ => .tInt
  | .vFloat _ => .tFloat
  | .vString _ => .tString
  | .vArray t es => .tArray es.length t
  | .vSlice t _ => .tSlice t
  | .vStruct n ms _ => .tStructT n ms []
  | .vPtr t _ => .tPtr t
  | .vIface ms _ => .tIface ms
  | .vMap t _ => .tMap t
  | .vDyn _ => .tIface []

/-- `reflect.Type.String`, as interpolated into error messages. -/
def typeNameGo : GoType → String
  | .tBool => "bool"
  | .tInt => "int"
  | .tUint8 => "uint8"
  | .tFloat => "float64"
  | .tString => "string"
  | .tArray n e => "[" ++ toString n ++ "]" ++ typeNameGo e
  | .tSlice e => "[]" ++ typeNameGo e
  | .tPtr e => "*" ++ typeNameGo e
  | .tIface _ => "interface \x7b\x7d"
  | .tMap v => "map[string]" ++ typeNameGo v
  | .tStructT n _ _ => n

/-- The dynamic type of a configuration node, as printed in bind error
messages. -/
def dynTypeName : DynVal → String
  | .null => "invalid"
  | .boolv _ => "bool"
  | .intv _ => "int"
  | .int64v _ => "int64"
  | .floatv _ => "float64"
  | .strv _ => "string"
  | .seq _ => "[]interface \x7b\x7d"
  | .map _ => "map[string]interface \x7b\x7d"

/-- The bytes of a string, as the Go conversion `[]byte(s)` produces them. -/
def stringBytes (s : String) : List GoVal :=
  s.toUTF8.toList.map (fun b => GoVal.vInt b.toNat)

/-- `config.Type().ConvertibleTo(v.Type())` together with
`config.Convert(v.Type())` for a dynamic scalar source: numeric widening and
truncating-narrowing, integer-to-string rune conversion, string to string or
byte slice.  `none` means not convertible. -/
def goConvertScalar (config : DynVal) (t : GoType) : Option GoVal :=
  match config, t with
  | .boolv b, .tBool => some (.vBool b)
  | .intv n, .tInt => some (.vInt n)
  | .intv n, .tUint8 => some (.vInt (n.emod 256))
  | .intv n, .tFloat => some (.vFloat n)
  | .intv n, .tString => some (.vString (intToRuneString n))
  | .int64v n, .tInt => some (.vInt n)
  | .int64v n, .tUint8 => some (.vInt (n.emod 256))
  | .int64v n, .tFloat => some (.vFloat n)
  | .int64v n, .tString => some (.vString (intToRuneString n))
  | .floatv q, .tInt => some (.vInt (ratTrunc q))
  | .floatv q, .tUint8 => some (.vInt ((ratTrunc q).emod 256))
  | .floatv q, .tFloat => some (.vFloat q)
  | .strv s, .tString => some (.vString s)
  | .strv s, .tSlice .tUint8 => some (.vSlice .tUint8 (stringBytes s))
  | _, _ => none

/-- Errors produced by the bind walk: `valueError` is `ConfigValueError`
from configure.go; `noFuel` marks exhausted recursion fuel in this model;
`panicErr` marks a `reflect` panic (e.g. `FieldByName` on a non-struct). -/
inductive CErr where
  | valueError (path : String) (message : String)
  | noFuel
  | panicErr (message : String)
  deriving Repr

/-- `configureScalar` from configure.go.  An invalid (null) source zeroes
interface, pointer, map and slice targets and leaves every other kind
untouched; a non-null source is stored verbatim into an empty-interface
target and otherwise converted to the target type, failing when no
conversion exists. -/
def configureScalar (v : GoVal) (config : DynVal) (path : String) :
    Except CErr GoVal :=
  match config with
  | .null =>
      match v with
      | .vIface ms _ => .ok (.vIface ms none)
      | .vPtr t _ => .ok (.vPtr t none)
      | .vMap t _ => .ok (.vMap t none)
      | .vSlice t _ => .ok (.vSlice t [])
      | v => .ok v
  | config =>
      match v with
      | .vIface [] _ => .ok (.vIface [] (some (.vDyn config)))
      | v =>
          match goConvertScalar config (typeOfGo v) with
          | some v2 => .ok v2
          | none => .error (.valueError path (dynTypeName config ++
              " cannot be used to configure " ++ typeNameGo (typeOfGo v)))

/-- A value registered with `Register`, as seen through `reflect`: a
function with its arity and list of output values (a zero-argument factory
is determined by the single value it returns), or a non-function. -/
inductive Provider where
  | func (numIn : Nat) (outs : List GoVal)
  | nonFunc (kindName : String)
  deriving Repr

/-- `ProviderError` from configure.go, carrying the offending provider. -/
structure ProviderError where
  value : Provider
  deriving Repr

/-- Lookup in the type registry. -/
def findProvider : List (String × Provider) → String → Option Provider
  | [], _ => none
  | (k, p) :: rest, key => if k = key then some p else findProvider rest key

/-- Store in the type registry (`c.types[name] = v`: silent overwrite). -/
def putProvider : List (String × Provider) → String → Provider →
    List (String × Provider)
  | [], key, p => [(key, p)]
  | (k, q) :: rest, key, p =>
      if k = key then (k, p) :: rest else (k, q) :: putProvider rest key p

/-- The configuration object's registry state (`Config.types`). -/
structure GoConfig where
  types : List (String × Provider)

/-- `Register` from configure.go: reject a provider that is not a function
or whose output count is not one, otherwise store it under the name.  (The
argument arity is never inspected.) -/
def register (c : GoConfig) (name : String) (p : Provider) :
    Except ProviderError GoConfig :=
  match p with
  | .func numIn outs =>
      if outs.length ≠ 1 then .error ⟨.func numIn outs⟩
      else .ok ⟨putProvider c.types name p⟩
  | .nonFunc k => .error ⟨.nonFunc k⟩

/-- `builder.Call([]reflect.Value{})[0]`: the single output of a registered
factory.  (A provider with no outputs cannot have been registered.) -/
def callProvider : Provider → GoVal
  | .func _ (o :: _) => o
  | _ => .vIface [] none

/-- `indirect` on the factory's output value: unwrap non-nil pointers, also
through an interface holding a non-nil pointer. -/
def unwrapPtrs : GoVal → GoVal
  | .vPtr _ (some p) => unwrapPtrs p
  | .vIface _ (some (.vPtr _ (some p))) => unwrapPtrs p
  | v => v

/-- Rebuild the factory output around its (re-bound) core value: the inverse
of `unwrapPtrs`, mirroring that in Go the bound struct is the output's own
pointee. -/
def rewrapPtrs : GoVal → GoVal → GoVal
  | .vPtr t (some p), s2 => .vPtr t (some (rewrapPtrs p s2))
  | .vIface ms (some (.vPtr t (some p))), s2 =>
      .vIface ms (some (.vPtr t (some (rewrapPtrs p s2))))
  | _, s2 => s2

/-- The pointer-receiver method set of a value, as consulted by
`s.Addr().Type().Implements(v.Type())`. -/
def ptrMethodsOf : GoVal → List String
  | .vStruct _ ms _ => ms
  | _ => []

/-- `Implements`: every method required by the interface is provided. -/
def implementsB (required provided : List String) : Bool :=
  required.all (fun m => provided.contains m)

/-- `FieldByName` on a struct's exported fields. -/
def findField : List (String × GoVal) → String → Option GoVal
  | [], _ => none
  | (k, v) :: rest, key => if k = key then some v else findField rest key

/-- Store a field's new value. -/
def putField : List (String × GoVal) → String → GoVal → List (String × GoVal)
  | [], key, v => [(key, v)]
  | (k, w) :: rest, key, v =>
      if k = key then (k, v) :: rest else (k, w) :: putField rest key v

mutual

/-- `configure` from configure.go.  The `indirect` step is the two leading
cases: a pointer target is followed (allocating a nil pointee), and an
interface target holding a non-nil pointer is followed into the pointee, so
an already-populated interface is re-bound in place.  The remaining value
then dispatches on the source kind: a sequence goes to the array handler; a
mapping goes to the interface, struct or map handler according to the target
kind and fails on any other kind; everything else (including the invalid
null) goes to the scalar handler. -/
def configure (cfg : GoConfig) : Nat → GoVal → DynVal → String → Except CErr GoVal
  | 0, _, _, _ => .error .noFuel
  | fuel + 1, .vPtr t p, config, path =>
      match configure cfg fuel (p.getD (zeroVal t)) config path with
      | .ok inner => .ok (.vPtr t (some inner))
      | .error e => .error e
  | fuel + 1, .vIface ms (some (.vPtr t (some pv))), config, path =>
      match configure cfg fuel pv config path with
      | .ok inner => .ok (.vIface ms (some (.vPtr t (some inner))))
      | .error e => .error e
  | fuel + 1, v, .seq xs, path => configureArray cfg fuel v xs path
  | fuel + 1, .vIface ms c, .map m, path => configureInterface cfg fuel ms c m path
  | fuel + 1, .vStruct n sms fs, .map m, path =>
      configureStruct cfg fuel (.vStruct n sms fs) m path
  | fuel + 1, .vMap t entries, .map m, path => configureMap cfg fuel t entries m path
  | _ + 1, v, .map _, path =>
      .error (.valueError path ("a map cannot be used to configure " ++
        typeNameGo (typeOfGo v)))
  | _ + 1, v, config, path => configureScalar v config path

/-- `configureArray` from configure.go.  An empty-interface target stores
the raw sequence verbatim; otherwise the target must be an array or slice.
A slice whose capacity is below the source length is grown with
`reflect.MakeSlice` + `reflect.Copy` (existing elements preserved, the rest
zero).  Then `min(sourceLen, cap)` elements are bound positionally, the tail
of an array is reset to the element zero value, and a longer slice is
truncated with `SetLen`. -/
def configureArray (cfg : GoConfig) :
    Nat → GoVal → List DynVal → String → Except CErr GoVal
  | 0, _, _, _ => .error .noFuel
  | fuel + 1, .vIface [] _, xs, _ => .ok (.vIface [] (some (.vDyn (.seq xs))))
  | fuel + 1, .vArray t elems, xs, path =>
      let n0 := xs.length
      let n := if n0 > elems.length then elems.length else n0
      match configureList cfg fuel (elems.take n) (xs.take n) 0 path with
      | .ok upd => .ok (.vArray t (upd ++ List.replicate (elems.length - n) (zeroVal t)))
      | .error e => .error e
  | fuel + 1, .vSlice t elems, xs, path =>
      let n0 := xs.length
      let elems2 := if elems.length < n0 then
          elems ++ List.replicate (n0 - elems.length) (zeroVal t)
        else elems
      let n := if n0 > elems2.length then elems2.length else n0
      match configureList cfg fuel (elems2.take n) (xs.take n) 0 path with
      | .ok upd => .ok (.vSlice t upd)
      | .error e => .error e
  | _ + 1, v, xs, path =>
      .error (.valueError path (dynTypeName (.seq xs) ++
        " cannot be used to configure " ++ typeNameGo (typeOfGo v)))

/-- The element loop of `configureArray`: bind source element `i` into
target element `i`, extending the path with the index. -/
def configureList (cfg : GoConfig) :
    Nat → List GoVal → List DynVal → Nat → String → Except CErr (List GoVal)
  | 0, _, _, _, _ => .error .noFuel
  | fuel + 1, v :: vs, c :: cs, i, path =>
      match configure cfg fuel v c (path ++ "." ++ toString i) with
      | .ok v2 =>
          match configureList cfg fuel vs cs (i + 1) path with
          | .ok vs2 => .ok (v2 :: vs2)
          | .error e => .error e
      | .error e => .error e
  | _ + 1, vs, _, _, _ => .ok vs

/-- `configureStruct` from configure.go: for every key of the source mapping
except the reserved `"type"`, locate the field with exactly that name
(failing with the field-not-found error on the struct's own path), bind the
source value into it with the path extended by the key, and stop at the
first failure.  Field names are the settable fields; `FieldByName` on a
non-struct value is a `reflect` panic. -/
def configureStruct (cfg : GoConfig) :
    Nat → GoVal → Entries → String → Except CErr GoVal
  | 0, _, _, _ => .error .noFuel
  | _ + 1, v, [], _ => .ok v
  | fuel + 1, v, (k, cv) :: rest, path =>
      if k = "type" then configureStruct cfg fuel v rest path
      else
        match v with
        | .vStruct sname sms fields =>
            match findField fields k with
            | none => .error (.valueError path ("field " ++ k ++
                " not found in struct " ++ sname))
            | some fv =>
                match configure cfg fuel fv cv (path ++ "." ++ k) with
                | .ok fv2 => configureStruct cfg fuel
                    (.vStruct sname sms (putField fields k fv2)) rest path
                | .error e => .error e
        | _ => .error (.panicErr "reflect: FieldByName of non-struct value")

/-- `configureInterface` from configure.go.  An empty interface stores the
raw mapping verbatim.  Otherwise the mapping must carry a string `"type"`
naming a registered factory; the factory's output is unwrapped, checked
against the interface's method set, stored in the slot, and its struct is
then bound from the same mapping (the `"type"` key being skipped there). -/
def configureInterface (cfg : GoConfig) :
    Nat → List String → Option GoVal → Entries → String → Except CErr GoVal
  | 0, _, _, _, _ => .error .noFuel
  | fuel + 1, ms, _, m, path =>
      if ms.isEmpty then .ok (.vIface [] (some (.vDyn (.map m))))
      else
        match goLookup m "type" with
        | none => .error (.valueError path "missing the type element")
        | some (.strv tname) =>
            match findProvider cfg.types tname with
            | none => .error (.valueError path ("type \"" ++ tname ++ "\" is unknown"))
            | some p =>
                let object := callProvider p
                let s := unwrapPtrs object
                if implementsB ms (ptrMethodsOf s) then
                  match configureStruct cfg fuel s m path with
                  | .ok s2 => .ok (.vIface ms (some (rewrapPtrs object s2)))
                  | .error e => .error e
                else
                  .error (.valueError path (typeNameGo (typeOfGo s) ++
                    " does not implement " ++ typeNameGo (.tIface ms)))
        | some _ => .error (.valueError path "type must be a string")

/-- `configureMap` from configure.go: allocate a nil map, then for every key
of the source mapping bind the source value into a fresh zero value of the
map's element type and store it under the key (replacing any previous
entry). -/
def configureMap (cfg : GoConfig) :
    Nat → GoType → Option (List (String × GoVal)) → Entries → String →
    Except CErr GoVal
  | 0, _, _, _, _ => .error .noFuel
  | fuel + 1, t, entries, m, path =>
      match configureMapEntries cfg fuel t (entries.getD []) m path with
      | .ok entries2 => .ok (.vMap t (some entries2))
      | .error e => .error e

/-- The key loop of `configureMap`. -/
def configureMapEntries (cfg : GoConfig) :
    Nat → GoType → List (String × GoVal) → Entries → String →
    Except CErr (List (String × GoVal))
  | 0, _, _, _, _ => .error .noFuel
  | _ + 1, _, cur, [], _ => .ok cur
  | fuel + 1, t, cur, (k, cv) :: rest, path =>
      match configure cfg fuel (zeroVal t) cv (path ++ "." ++ k) with
      | .ok mv => configureMapEntries cfg fuel t (putField cur k mv) rest path
      | .error e => .error e

end

/-- C5.  Binding a null source onto a primitive scalar target (bool,
integer, float, string) is a no-op: the existing value, including a
caller-preset non-zero default, is left untouched. -/
theorem c5_null_scalar_noop :
    ∀ (cfg : GoConfig) (f : Nat) (path : String),
      (∀ b : Bool, configure cfg (f + 1) (.vBool b) .null path = .ok (.vBool b)) ∧
      (∀ n : Int, configure cfg (f + 1) (.vInt n) .null path = .ok (.vInt n)) ∧
      (∀ q : Rat, configure cfg (f + 1) (.vFloat q) .null path = .ok (.vFloat q)) ∧
      (∀ s : String, configure cfg (f + 1) (.vString s) .null path = .ok (.vString s)) :=
  fun _ _ _ => ⟨fun _ => rfl, fun _ => rfl, fun _ => rfl, fun _ => rfl⟩

/-- C4, counterexample.  Binding null onto a fixed 3-slot array whose
elements were pre-set to `[1,2,3]` leaves them `[1,2,3]`: the null branch of
`configureScalar` zeroes only interface, pointer, map and slice targets, so
the array is not reset to `[0,0,0]`.  (The spec's `[0,0,0]` example holds
only because that test's target was already zero.) -/
theorem c4_counterexample :
    configure ⟨[]⟩ 1 (.vArray .tInt [.vInt 1, .vInt 2, .vInt 3]) .null "" =
      .ok (.vArray .tInt [.vInt 1, .vInt 2, .vInt 3]) ∧
    [GoVal.vInt 1, .vInt 2, .vInt 3] ≠ List.replicate 3 (GoVal.vInt 0) := by
  refine ⟨rfl, ?_⟩
  simp [List.replicate]

/-- C4, amended.  Binding a null source onto a fixed-length array target
leaves the array entirely unchanged (and does not error); binding a null
source onto a slice target resets it to the nil slice of length 0. -/
theorem c4_null_array_slice :
    (∀ (cfg : GoConfig) (f : Nat) (t : GoType) (prior : List GoVal) (path : String),
      configure cfg (f + 1) (.vArray t prior) .null path = .ok (.vArray t prior)) ∧
    (∀ (cfg : GoConfig) (f : Nat) (t : GoType) (prior : List GoVal) (path : String),
      configure cfg (f + 1) (.vSlice t prior) .null path = .ok (.vSlice t [])) :=
  ⟨fun _ _ _ _ _ => rfl, fun _ _ _ _ _ => rfl⟩

/-- C3.  Re-binding an interface slot that already holds a non-nil pointer
to a concrete instance updates the instance's fields in place: the source
mapping needs no `"type"` key, and the result is the same for every registry
contents, so no factory is consulted or invoked.  The target is reached
through a caller pointer, as in `Configure(&object)`. -/
theorem c3_rebind_populated_interface :
    ∀ (types : List (String × Provider)) (e1 e2 s2 : String) (t : GoType),
      configure ⟨types⟩ 8
        (.vPtr (.tIface ["Foo"]) (some (.vIface ["Foo"] (some (.vPtr t
          (some (.vStruct "D" ["Foo"] [("E1", .vString e1), ("E2", .vString e2)])))))))
        (.map [("E1", .strv s2)]) "" =
      .ok (.vPtr (.tIface ["Foo"]) (some (.vIface ["Foo"] (some (.vPtr t
          (some (.vStruct "D" ["Foo"] [("E1", .vString s2), ("E2", .vString e2)]))))))) :=
  fun _ _ _ _ _ => rfl

/-- C6, counterexample.  The field-not-found error's path is the path of the
containing struct (here the empty root path), not a path including the
offending key: the key appears only in the message. -/
theorem c6_counterexample :
    configure ⟨[]⟩ 2 (.vStruct "T" [] [("A", .vInt 0)]) (.map [("X", .intv 1)]) "" =
      .error (.valueError "" "field X not found in struct T") ∧
    ¬ List.IsInfix "X".data "".data := by
  exact ⟨rfl, by decide⟩

/-- C6, amended.  (i) Binding a mapping onto a struct fails with the
field-not-found `ConfigValueError` when it contains a key other than
`"type"` matching no field; the error carries the containing struct's path
and names the key in its message.  (ii) The reserved `"type"` key is always
skipped by the struct handler.  (iii) Binding a mapping onto a nil non-empty
interface slot fails with the unknown-type `ConfigValueError` when its
`"type"` string names no registered type. -/
theorem c6_unknown_field_and_type :
    (∀ (cfg : GoConfig) (f : Nat) (path sname : String) (sms : List String)
        (fields : List (String × GoVal)) (k : String) (cv : DynVal) (rest : Entries),
      k ≠ "type" → findField fields k = none →
      configure cfg (f + 2) (.vStruct sname sms fields) (.map ((k, cv) :: rest)) path =
        .error (.valueError path ("field " ++ k ++ " not found in struct " ++ sname))) ∧
    (∀ (cfg : GoConfig) (f : Nat) (v : GoVal) (cv : DynVal) (rest : Entries) (path : String),
      configureStruct cfg (f + 1) v (("type", cv) :: rest) path =
        configureStruct cfg f v rest path) ∧
    (∀ (cfg : GoConfig) (f : Nat) (ms : List String) (m : Entries) (path tname : String),
      ms.isEmpty = false → goLookup m "type" = some (.strv tname) →
      findProvider cfg.types tname = none →
      configure cfg (f + 2) (.vIface ms none) (.map m) path =
        .error (.valueError path ("type \"" ++ tname ++ "\" is unknown"))) := by
  refine ⟨?_, ?_, ?_⟩
  · intro cfg f path sname sms fields k cv rest hk hfield
    show configureStruct cfg (f + 1) (.vStruct sname sms fields) ((k, cv) :: rest) path =
      .error (.valueError path ("field " ++ k ++ " not found in struct " ++ sname))
    rw [configureStruct]
    rw [if_neg hk, hfield]
  · intro cfg f v cv rest path
    cases v <;> rfl
  · intro cfg f ms m path tname hms hlook hprov
    show configureInterface cfg (f + 1) ms none m path =
      .error (.valueError path ("type \"" ++ tname ++ "\" is unknown"))
    rw [configureInterface]
    rw [hms]
    simp only [Bool.false_eq_true, if_false, hlook, hprov]

/-- C6, witness at concrete inputs: binding `{"Bad": null}` onto a struct
with field `E1` at path `.p`, and `{"type":"C9"}` onto a nil `C`-interface
slot with an empty registry. -/
theorem c6_unknown_field_and_type_witness :
    configure ⟨[]⟩ 3 (.vStruct "S" [] [("E1", .vString "")]) (.map [("Bad", .null)]) ".p" =
      .error (.valueError ".p" "field Bad not found in struct S") ∧
    configure ⟨[]⟩ 3 (.vIface ["Foo"] none) (.map [("type", .strv "C9")]) "" =
      .error (.valueError "" "type \"C9\" is unknown") := by
  constructor
  · exact c6_unknown_field_and_type.1 ⟨[]⟩ 1 ".p" "S" [] [("E1", .vString "")]
      "Bad" .null [] (by decide) rfl
  · exact c6_unknown_field_and_type.2.2 ⟨[]⟩ 1 ["Foo"] [("type", .strv "C9")]
      "" "C9" rfl rfl rfl

/-- C7, counterexample.  A single-output function of argument arity 1 is
accepted by `Register` and stored, although the claim requires registration
to fail for non-zero arity: the code checks only the function kind and the
output count. -/
theorem c7_counterexample :
    register ⟨[]⟩ "F" (.func 1 [.vInt 0]) = .ok ⟨[("F", .func 1 [.vInt 0])]⟩ := rfl

/-- C7, amended.  `Register` fails exactly when the provider is not a
function or its output count is not 1; the argument arity is never
inspected, and an accepted provider is stored under the given name
(overwriting silently). -/
theorem c7_register_shape :
    ∀ (c : GoConfig) (name : String),
      (∀ kind : String, register c name (.nonFunc kind) = .error ⟨.nonFunc kind⟩) ∧
      (∀ (numIn : Nat) (outs : List GoVal), outs.length ≠ 1 →
        register c name (.func numIn outs) = .error ⟨.func numIn outs⟩) ∧
      (∀ (numIn : Nat) (outs : List GoVal), outs.length = 1 →
        register c name (.func numIn outs) =
          .ok ⟨putProvider c.types name (.func numIn outs)⟩) := by
  intro c name
  refine ⟨fun _ => rfl, ?_, ?_⟩
  · intro numIn outs h
    simp [register, h]
  · intro numIn outs h
    simp [register, h]

theorem configure_int_scalar (cfg : GoConfig) (f : Nat) (p x : Int) (path : String) :
    configure cfg (f + 1) (.vInt p) (.intv x) path = .ok (.vInt x) := rfl

/-- Positional element binding of integer sources into integer targets:
every element is converted in place. -/
theorem configureList_ints : ∀ (cfg : GoConfig) (ps xs : List Int) (f i : Nat)
    (path : String), ps.length = xs.length →
    configureList cfg (f + ps.length + 1) (ps.map GoVal.vInt) (xs.map DynVal.intv)
      i path = .ok (xs.map GoVal.vInt) := by
  intro cfg ps
  induction ps with
  | nil =>
    intro xs f i path hlen
    cases xs with
    | nil => rfl
    | cons x xs2 => simp at hlen
  | cons p ps ih =>
    intro xs f i path hlen
    cases xs with
    | nil => simp at hlen
    | cons x xs2 =>
      have hlen2 : ps.length = xs2.length := by simpa using hlen
      rw [show f + (p :: ps).length + 1 = (f + ps.length + 1) + 1 by
        simp [List.length_cons]; omega]
      simp only [List.map_cons]
      rw [configureList]
      rw [configure_int_scalar cfg (f + ps.length) p x]
      rw [ih xs2 f (i + 1) path hlen2]

/-- `configureArray` on a fixed-length integer array: `min(n, c)` elements
are bound positionally and the tail is reset to zero. -/
theorem configureArray_array_ints : ∀ (cfg : GoConfig) (xs prior : List Int)
    (path : String),
    configureArray cfg (xs.length + 2) (.vArray .tInt (prior.map .vInt))
      (xs.map .intv) path =
    .ok (.vArray .tInt ((xs.take (min xs.length prior.length)).map GoVal.vInt ++
      List.replicate (prior.length - min xs.length prior.length) (GoVal.vInt 0))) := by
  intro cfg xs prior path
  rw [show xs.length + 2 = (xs.length + 1) + 1 from rfl]
  simp only [configureArray, List.length_map]
  rw [show (if xs.length > prior.length then prior.length else xs.length) =
      min xs.length prior.length from by split_ifs with h <;> omega]
  rw [show (prior.map GoVal.vInt).take (min xs.length prior.length) =
      (prior.take (min xs.length prior.length)).map GoVal.vInt from by
    rw [List.map_take]]
  rw [show (xs.map DynVal.intv).take (min xs.length prior.length) =
      ((xs.take (min xs.length prior.length)).map DynVal.intv) from by
    rw [List.map_take]]
  rw [show xs.length + 1 =
      (xs.length - min xs.length prior.length) +
        (prior.take (min xs.length prior.length)).length + 1 from by
    simp [List.length_take] <;> omega]
  rw [configureList_ints cfg (prior.take (min xs.length prior.length))
    (xs.take (min xs.length prior.length))
    (xs.length - min xs.length prior.length) 0 path
    (by simp [List.length_take] <;> omega)]
  rfl

/-- `configureArray` on a growable integer slice: the backing list is grown
when needed, every source element is bound, and a longer prior list is
truncated to the bound count. -/
theorem configureArray_slice_ints : ∀ (cfg : GoConfig) (xs prior : List Int)
    (path : String),
    configureArray cfg (xs.length + 2) (.vSlice .tInt (prior.map .vInt))
      (xs.map .intv) path =
    .ok (.vSlice .tInt (xs.map GoVal.vInt)) := by
  intro cfg xs prior path
  rw [show xs.length + 2 = (xs.length + 1) + 1 from rfl]
  simp only [configureArray, List.length_map]
  rw [show (if prior.length < xs.length then
        prior.map GoVal.vInt ++
          List.replicate (xs.length - prior.length) (zeroVal .tInt)
      else prior.map GoVal.vInt) =
      (prior ++ List.replicate (xs.length - prior.length) (0 : Int)).map
        GoVal.vInt from by
    split_ifs with h
    · simp [List.map_append, List.map_replicate, zeroVal]
    · simp [show xs.length - prior.length = 0 from by omega]]
  simp only [List.length_map, List.length_append, List.length_replicate]
  rw [show (if xs.length > prior.length + (xs.length - prior.length) then
      prior.length + (xs.length - prior.length) else xs.length) = xs.length
    from by split_ifs with h <;> omega]
  rw [show ((prior ++ List.replicate (xs.length - prior.length) (0 : Int)).map
        GoVal.vInt).take xs.length =
      ((prior ++ List.replicate (xs.length - prior.length) (0 : Int)).take
        xs.length).map GoVal.vInt from by rw [List.map_take]]
  rw [show (xs.map DynVal.intv).take xs.length = xs.map DynVal.intv from by
    rw [← List.length_map xs DynVal.intv]
    exact List.take_length _]
  rw [show xs.length + 1 =
      0 + ((prior ++ List.replicate (xs.length - prior.length) (0 : Int)).take
        xs.length).length + 1 from by
    simp [List.length_take, List.length_append, List.length_replicate] <;> omega]
  rw [show xs.map DynVal.intv = (xs.map id).map DynVal.intv from by simp]
  rw [configureList_ints cfg
    ((prior ++ List.replicate (xs.length - prior.length) (0 : Int)).take
      xs.length) (xs.map id) 0 0 path
    (by simp [List.length_take, List.length_append, List.length_replicate] <;> omega)]
  simp

/-- C2.  Binding a sequence of `n` integers onto a fixed array of capacity
`c` binds exactly `min(n, c)` elements positionally, silently drops the
excess without error, and resets positions `min(n, c) .. c-1` to the zero
value; binding onto a growable list grows the backing storage when needed
and truncates a longer prior list to the bound count, yielding exactly the
`n` bound elements. -/
theorem c2_sequence_binding :
    ∀ (cfg : GoConfig) (xs prior : List Int) (path : String),
      (configure cfg (xs.length + 3) (.vArray .tInt (prior.map .vInt))
          (.seq (xs.map .intv)) path =
        .ok (.vArray .tInt ((xs.take (min xs.length prior.length)).map GoVal.vInt ++
          List.replicate (prior.length - min xs.length prior.length)
            (GoVal.vInt 0)))) ∧
      (configure cfg (xs.length + 3) (.vSlice .tInt (prior.map .vInt))
          (.seq (xs.map .intv)) path =
        .ok (.vSlice .tInt (xs.map GoVal.vInt))) := by
  intro cfg xs prior path
  constructor
  · rw [show configure cfg (xs.length + 3) (.vArray .tInt (prior.map .vInt))
        (.seq (xs.map .intv)) path =
      configureArray cfg (xs.length + 2) (.vArray .tInt (prior.map .vInt))
        (xs.map .intv) path from rfl]
    exact configureArray_array_ints cfg xs prior path
  · rw [show configure cfg (xs.length + 3) (.vSlice .tInt (prior.map .vInt))
        (.seq (xs.map .intv)) path =
      configureArray cfg (xs.length + 2) (.vSlice .tInt (prior.map .vInt))
        (xs.map .intv) path from rfl]
    exact configureArray_slice_ints cfg xs prior path

/-- C7, witness: a zero-argument single-output function is accepted and
stored, a two-output function is rejected. -/
theorem c7_register_shape_witness :
    register ⟨[]⟩ "T0" (.func 0 [.vString ""]) =
      .ok ⟨[("T0", .func 0 [.vString ""])]⟩ ∧
    register ⟨[]⟩ "T1" (.func 0 [.vString "", .vIface [] none]) =
      .error ⟨.func 0 [.vString "", .vIface [] none]⟩ := by
  constructor
  · exact (c7_register_shape ⟨[]⟩ "T0").2.2 0 [.vString ""] rfl
  · exact (c7_register_shape ⟨[]⟩ "T1").2.1 0 [.vString "", .vIface [] none] (by decide)

end OzzoConfig

